import Mathlib

/-!
Verification development for the labinform-datasafe repository.

Python strings are modelled as lists of characters, file contents as lists
of byte values, and the file system as an association list from paths to
contents.  Stateful Python code is embedded as explicit state passing or as
functions threading an immutable parameter where the source threads a
mutable attribute of constant value.
-/

/-- Model of the Python expression string.split(sep) for a one-character
separator: splitting the empty string yields one empty field, and every
separator character opens a new field. -/
def pySplit (sep : Char) : List Char → List (List Char)
  | [] => [[]]
  | c :: rest =>
    if c = sep then [] :: pySplit sep rest
    else
      match pySplit sep rest with
      | [] => [[c]]
      | t :: ts => (c :: t) :: ts

/-- Model of the Python expression sep.join(parts) for a one-character
separator. -/
def pyJoin (sep : Char) : List (List Char) → List Char
  | [] => []
  | [x] => x
  | x :: y :: ys => x ++ sep :: pyJoin sep (y :: ys)

theorem pySplit_ne_nil (sep : Char) (s : List Char) : pySplit sep s ≠ [] := by
  cases s with
  | nil => simp [pySplit]
  | cons c rest =>
    simp only [pySplit]
    split
    · simp
    · split <;> simp

theorem pyJoin_pySplit (sep : Char) (s : List Char) :
    pyJoin sep (pySplit sep s) = s := by
  induction s with
  | nil => rfl
  | cons c rest ih =>
    rcases hps : pySplit sep rest with _ | ⟨t, ts⟩
    · exact absurd hps (pySplit_ne_nil sep rest)
    · by_cases hc : c = sep
      · subst hc
        rw [hps] at ih
        simp only [pySplit, if_pos rfl, hps]
        cases ts with
        | nil => simp [pyJoin] at ih ⊢; exact ih
        | cons u us => simp [pyJoin] at ih ⊢; exact ih
      · rw [hps] at ih
        simp only [pySplit, if_neg hc, hps]
        cases ts with
        | nil => simp [pyJoin] at ih ⊢; exact ih
        | cons u us => simp [pyJoin] at ih ⊢; exact ih

theorem pySplit_no_sep (sep : Char) (a : List Char) (h : sep ∉ a) :
    pySplit sep a = [a] := by
  induction a with
  | nil => rfl
  | cons c rest ih =>
    have hc : ¬ c = sep := fun he => h (he ▸ List.mem_cons_self c rest)
    have hrest : sep ∉ rest := fun hm => h (List.mem_cons_of_mem c hm)
    simp only [pySplit, if_neg hc, ih hrest]

theorem pySplit_append (sep : Char) (a b : List Char) (h : sep ∉ a) :
    pySplit sep (a ++ sep :: b) = a :: pySplit sep b := by
  induction a with
  | nil => simp [pySplit]
  | cons c rest ih =>
    have hc : ¬ c = sep := fun he => h (he ▸ List.mem_cons_self c rest)
    have hrest : sep ∉ rest := fun hm => h (List.mem_cons_of_mem c hm)
    have hr := ih hrest
    simp only [List.cons_append, pySplit, if_neg hc]
    rw [show rest.append (sep :: b) = rest ++ sep :: b from rfl, hr]

theorem pySplit_length (sep : Char) (s : List Char) :
    (pySplit sep s).length = s.count sep + 1 := by
  induction s with
  | nil => simp [pySplit]
  | cons c rest ih =>
    by_cases hc : c = sep
    · subst hc
      simp [pySplit, List.count_cons, ih]
    · rcases hps : pySplit sep rest with _ | ⟨t, ts⟩
      · exact absurd hps (pySplit_ne_nil sep rest)
      · rw [hps] at ih
        simp only [pySplit, if_neg hc, hps]
        simp only [List.length_cons] at ih ⊢
        have hne : (c == sep) = false := by
          simp [hc]
        simp [List.count_cons, hne, ih]

/-- Byte encoding of a string; the source calls string.encode() whose UTF-8
output agrees with the character code point on the ASCII strings handled
here. -/
def strBytes (s : List Char) : List Nat := s.map Char.toNat

/-! ## Model of hashlib.md5

The checksum module delegates hashing to hashlib with the default algorithm
md5 (checksum.Generator.algorithm defaults to "md5").  The MD5 algorithm
itself (RFC 1321) is reproduced here over natural numbers, with 32-bit
overflow made explicit by reduction modulo 2^32. -/

/-- Per-round additive constants of MD5 (RFC 1321). -/
def md5K : List Nat :=
  [0xd76aa478, 0xe8c7b756, 0x242070db, 0xc1bdceee,
   0xf57c0faf, 0x4787c62a, 0xa8304613, 0xfd469501,
   0x698098d8, 0x8b44f7af, 0xffff5bb1, 0x895cd7be,
   0x6b901122, 0xfd987193, 0xa679438e, 0x49b40821,
   0xf61e2562, 0xc040b340, 0x265e5a51, 0xe9b6c7aa,
   0xd62f105d, 0x02441453, 0xd8a1e681, 0xe7d3fbc8,
   0x21e1cde6, 0xc33707d6, 0xf4d50d87, 0x455a14ed,
   0xa9e3e905, 0xfcefa3f8, 0x676f02d9, 0x8d2a4c8a,
   0xfffa3942, 0x8771f681, 0x6d9d6122, 0xfde5380c,
   0xa4beea44, 0x4bdecfa9, 0xf6bb4b60, 0xbebfbc70,
   0x289b7ec6, 0xeaa127fa, 0xd4ef3085, 0x04881d05,
   0xd9d4d039, 0xe6db99e5, 0x1fa27cf8, 0xc4ac5665,
   0xf4292244, 0x432aff97, 0xab9423a7, 0xfc93a039,
   0x655b59c3, 0x8f0ccc92, 0xffeff47d, 0x85845dd1,
   0x6fa87e4f, 0xfe2ce6e0, 0xa3014314, 0x4e0811a1,
   0xf7537e82, 0xbd3af235, 0x2ad7d2bb, 0xeb86d391]

/-- Per-round left-rotation amounts of MD5 (RFC 1321). -/
def md5S : List Nat :=
  [7, 12, 17, 22, 7, 12, 17, 22, 7, 12, 17, 22, 7, 12, 17, 22,
   5, 9, 14, 20, 5, 9, 14, 20, 5, 9, 14, 20, 5, 9, 14, 20,
   4, 11, 16, 23, 4, 11, 16, 23, 4, 11, 16, 23, 4, 11, 16, 23,
   6, 10, 15, 21, 6, 10, 15, 21, 6, 10, 15, 21, 6, 10, 15, 21]

/-- All-ones 32-bit mask, used for bitwise complement on 32-bit words. -/
def mask32 : Nat := 4294967295

/-- Left rotation of a 32-bit word. -/
def rotl32 (x s : Nat) : Nat :=
  ((x <<< s) % 4294967296) ||| (x >>> (32 - s))

/-- Round functions of MD5. -/
def md5F (b c d : Nat) : Nat := (b &&& c) ||| ((mask32 ^^^ b) &&& d)

/-- Round function G of MD5. -/
def md5G (b c d : Nat) : Nat := (d &&& b) ||| ((mask32 ^^^ d) &&& c)

/-- Round function H of MD5. -/
def md5H (b c d : Nat) : Nat := b ^^^ c ^^^ d

/-- Round function I of MD5. -/
def md5I (b c d : Nat) : Nat := c ^^^ (b ||| (mask32 ^^^ d))

/-- Little-endian 32-bit word number g of a 64-byte chunk. -/
def md5word (chunk : List Nat) (g : Nat) : Nat :=
  chunk.getD (4 * g) 0 + 256 * chunk.getD (4 * g + 1) 0 +
    65536 * chunk.getD (4 * g + 2) 0 + 16777216 * chunk.getD (4 * g + 3) 0

/-- One of the 64 MD5 operations on the register quadruple. -/
def md5step (chunk : List Nat) (st : Nat × Nat × Nat × Nat) (i : Nat) :
    Nat × Nat × Nat × Nat :=
  let (a, b, c, d) := st
  let f :=
    if i < 16 then md5F b c d
    else if i < 32 then md5G b c d
    else if i < 48 then md5H b c d
    else md5I b c d
  let g :=
    if i < 16 then i
    else if i < 32 then (5 * i + 1) % 16
    else if i < 48 then (3 * i + 5) % 16
    else (7 * i) % 16
  let tmp := (a + f + md5K.getD i 0 + md5word chunk g) % 4294967296
  let nb := (b + rotl32 tmp (md5S.getD i 0)) % 4294967296
  (d, nb, b, c)

/-- Processing of one 64-byte chunk. -/
def md5chunk (st : Nat × Nat × Nat × Nat) (chunk : List Nat) :
    Nat × Nat × Nat × Nat :=
  let (h0, h1, h2, h3) := st
  let (a, b, c, d) := (List.range 64).foldl (md5step chunk) (h0, h1, h2, h3)
  ((h0 + a) % 4294967296, (h1 + b) % 4294967296,
   (h2 + c) % 4294967296, (h3 + d) % 4294967296)

/-- Splitting of a byte list into chunks of 64 bytes; the structural fuel
argument bounds the number of chunks and is supplied as the list length,
which always suffices because every step drops at least one element. -/
def chunks64F : Nat → List Nat → List (List Nat)
  | _, [] => []
  | 0, _ => []
  | n + 1, x :: xs => ((x :: xs).take 64) :: chunks64F n ((x :: xs).drop 64)

/-- Splitting of a byte list into chunks of 64 bytes. -/
def chunks64 (l : List Nat) : List (List Nat) := chunks64F l.length l

/-- MD5 padding: one 0x80 byte, zero bytes up to 56 mod 64, then the bit
length as a little-endian 64-bit number. -/
def md5pad (msg : List Nat) : List Nat :=
  let bitLen := (8 * msg.length) % 18446744073709551616
  msg ++ 128 :: List.replicate ((119 - msg.length % 64) % 64) 0 ++
    [bitLen % 256, bitLen / 256 % 256, bitLen / 65536 % 256,
     bitLen / 16777216 % 256, bitLen / 4294967296 % 256,
     bitLen / 1099511627776 % 256, bitLen / 281474976710656 % 256,
     bitLen / 72057594037927936 % 256]

/-- MD5 digest of a byte list as the four 32-bit state words. -/
def md5digest (msg : List Nat) : Nat × Nat × Nat × Nat :=
  (chunks64 (md5pad msg)).foldl md5chunk
    (0x67452301, 0xefcdab89, 0x98badcfe, 0x10325476)

/-- Lowercase hexadecimal digit characters. -/
def hexDigit (n : Nat) : Char := ("0123456789abcdef".data).getD n '0'

/-- Lowercase hexadecimal rendering of one 32-bit word, little-endian byte
order as in hexdigest(). -/
def wordHexLE (w : Nat) : List Char :=
  [hexDigit (w % 256 / 16), hexDigit (w % 16),
   hexDigit (w / 256 % 256 / 16), hexDigit (w / 256 % 16),
   hexDigit (w / 65536 % 256 / 16), hexDigit (w / 65536 % 16),
   hexDigit (w / 16777216 % 256 / 16), hexDigit (w / 16777216 % 16)]

/-- Model of hashlib.md5(msg).hexdigest() on a byte list. -/
def md5hex (msg : List Nat) : List Char :=
  wordHexLE (md5digest msg).1 ++ wordHexLE (md5digest msg).2.1 ++
    wordHexLE (md5digest msg).2.2.1 ++ wordHexLE (md5digest msg).2.2.2

/-! ## Model of datasafe.checksum.Generator

The algorithm attribute keeps its default value "md5" throughout the claims
considered here, so the hash function is fixed to the md5 model above. -/

/-- Lexicographic string comparison by character code point, the order used
by the Python builtin sorted() on str values. -/
def lexLe : List Char → List Char → Bool
  | [], _ => true
  | _ :: _, [] => false
  | a :: as, b :: bs => if a = b then lexLe as bs else decide (a < b)

/-- Insertion of an element into a list sorted by le. -/
def insertLe {α : Type} (le : α → α → Bool) (x : α) : List α → List α
  | [] => [x]
  | y :: ys => if le x y then x :: y :: ys else y :: insertLe le x ys

/-- Insertion sort; models the Python builtin sorted().  Any comparison
sort yields the same output for a total antisymmetric order, so the choice
of algorithm is immaterial. -/
def sortLe {α : Type} (le : α → α → Bool) (l : List α) : List α :=
  l.foldr (insertLe le) []

theorem insertLe_perm {α : Type} (le : α → α → Bool) (x : α) (l : List α) :
    List.Perm (insertLe le x l) (x :: l) := by
  induction l with
  | nil => simp [insertLe]
  | cons y ys ih =>
    simp only [insertLe]
    split
    · exact List.Perm.refl _
    · exact (ih.cons y).trans (List.Perm.swap x y ys)

theorem sortLe_perm {α : Type} (le : α → α → Bool) (l : List α) :
    List.Perm (sortLe le l) l := by
  induction l with
  | nil => exact List.Perm.refl _
  | cons x xs ih =>
    exact (insertLe_perm le x (sortLe le xs)).trans (ih.cons x)

theorem insertLe_sorted {α : Type} (le : α → α → Bool)
    (htot : ∀ a b, le a b = false → le b a = true)
    (htrans : ∀ a b c, le a b = true → le b c = true → le a c = true)
    (x : α) (l : List α)
    (h : l.Pairwise (fun a b => le a b = true)) :
    (insertLe le x l).Pairwise (fun a b => le a b = true) := by
  induction l with
  | nil => simp [insertLe]
  | cons y ys ih =>
    rcases List.pairwise_cons.mp h with ⟨hy, hys⟩
    simp only [insertLe]
    by_cases hxy : le x y = true
    · rw [if_pos hxy]
      refine List.pairwise_cons.mpr ⟨?_, h⟩
      intro b hb
      rcases List.mem_cons.mp hb with hb | hb
      · exact hb ▸ hxy
      · exact htrans x y b hxy (hy b hb)
    · rw [if_neg hxy]
      refine List.pairwise_cons.mpr ⟨?_, ih hys⟩
      intro b hb
      rcases List.mem_cons.mp ((insertLe_perm le x ys).mem_iff.mp hb) with hb | hb
      · exact hb ▸ htot x y (Bool.eq_false_iff.mpr hxy)
      · exact hy b hb

theorem sortLe_sorted {α : Type} (le : α → α → Bool)
    (htot : ∀ a b, le a b = false → le b a = true)
    (htrans : ∀ a b c, le a b = true → le b c = true → le a c = true)
    (l : List α) :
    (sortLe le l).Pairwise (fun a b => le a b = true) := by
  induction l with
  | nil => simp [sortLe]
  | cons x xs ih => exact insertLe_sorted le htot htrans x (sortLe le xs) ih

theorem lexLe_total : ∀ a b, lexLe a b = false → lexLe b a = true := by
  intro a
  induction a with
  | nil => intro b h; simp [lexLe] at h
  | cons x xs ih =>
    intro b h
    cases b with
    | nil => simp [lexLe]
    | cons y ys =>
      simp only [lexLe] at h ⊢
      by_cases hxy : x = y
      · subst hxy
        rw [if_pos rfl] at h ⊢
        exact ih ys h
      · rw [if_neg hxy] at h
        have hyx : ¬ y = x := fun he => hxy he.symm
        rw [if_neg hyx]
        simp only [decide_eq_false_iff_not] at h
        simp only [decide_eq_true_eq]
        rcases lt_trichotomy x y with h1 | h1 | h1
        · exact absurd h1 h
        · exact absurd h1 hxy
        · exact h1

theorem lexLe_trans : ∀ a b c,
    lexLe a b = true → lexLe b c = true → lexLe a c = true := by
  intro a
  induction a with
  | nil => intro b c _ _; simp [lexLe]
  | cons x xs ih =>
    intro b c hab hbc
    cases b with
    | nil => simp [lexLe] at hab
    | cons y ys =>
      cases c with
      | nil => simp [lexLe] at hbc
      | cons z zs =>
        simp only [lexLe] at hab hbc ⊢
        by_cases hxy : x = y
        · subst hxy
          rw [if_pos rfl] at hab
          by_cases hxz : x = z
          · subst hxz
            rw [if_pos rfl] at hbc ⊢
            exact ih ys zs hab hbc
          · rw [if_neg hxz] at hbc ⊢
            exact hbc
        · rw [if_neg hxy] at hab
          simp only [decide_eq_true_eq] at hab
          by_cases hyz : y = z
          · subst hyz
            rw [if_neg hxy]
            simp only [decide_eq_true_eq]
            exact hab
          · rw [if_neg hyz] at hbc
            simp only [decide_eq_true_eq] at hbc
            have hxz : x < z := lt_trans hab hbc
            have hne : ¬ x = z := ne_of_lt hxz
            rw [if_neg hne]
            simp only [decide_eq_true_eq]
            exact hxz

theorem lexLe_antisymm : ∀ a b, lexLe a b = true → lexLe b a = true → a = b := by
  intro a
  induction a with
  | nil =>
    intro b _ hba
    cases b with
    | nil => rfl
    | cons y ys => simp [lexLe] at hba
  | cons x xs ih =>
    intro b hab hba
    cases b with
    | nil => simp [lexLe] at hab
    | cons y ys =>
      simp only [lexLe] at hab hba
      by_cases hxy : x = y
      · subst hxy
        rw [if_pos rfl] at hab hba
        rw [ih ys hab hba]
      · have hyx : ¬ y = x := fun he => hxy he.symm
        rw [if_neg hxy] at hab
        rw [if_neg hyx] at hba
        simp only [decide_eq_true_eq] at hab hba
        exact absurd hba (lt_asymm hab)

theorem sortLe_lexLe_eq_of_perm (L P : List (List Char))
    (h : List.Perm L P) : sortLe lexLe L = sortLe lexLe P := by
  haveI : IsAntisymm (List Char) (fun a b => lexLe a b = true) :=
    ⟨fun a b => lexLe_antisymm a b⟩
  exact List.eq_of_perm_of_sorted
    ((sortLe_perm _ L).trans (h.trans (sortLe_perm _ P).symm))
    (sortLe_sorted _ lexLe_total lexLe_trans L)
    (sortLe_sorted _ lexLe_total lexLe_trans P)

/-- Model of checksum.Generator.hash_string with the default md5 algorithm:
the checksum of a single string. -/
def hash_string (s : List Char) : List Char := md5hex (strBytes s)

/-- Model of checksum.Generator.hash_strings with the default md5
algorithm: the input list is sorted, then every element is fed into one
md5 stream, which amounts to hashing the concatenation of the sorted
elements. -/
def hash_strings (l : List (List Char)) : List Char :=
  md5hex (((sortLe lexLe l).map strBytes).flatten)

/-- File system model: an association list from file paths to byte
contents. -/
abbrev FileSystem := List (List Char × List Nat)

/-- Lookup of a path in the file system model; os.path.exists corresponds
to isSome of this lookup. -/
def fsLookup (fs : FileSystem) (p : List Char) : Option (List Nat) :=
  (fs.find? (fun e => e.1 == p)).map Prod.snd

/-- Model of Generator._hash_file_content: the file content is read in
binary 4K chunks and hashed, which equals hashing the whole content; a
missing file makes Python raise FileNotFoundError, modelled as none. -/
def hash_file_content (fs : FileSystem) (p : List Char) : Option (List Char) :=
  (fsLookup fs p).map md5hex

/-- Argument of checksum.Generator.generate: either a bare (non-list)
filename or a list of filenames, mirroring the isinstance(filenames, list)
dispatch in the source. -/
inductive Filenames where
  | single (name : List Char)
  | listOf (names : List (List Char))

/-- Model of checksum.Generator.generate: a bare filename is hashed by
content; a list of filenames is mapped through _hash_file_content and the
resulting digests are combined with hash_strings. -/
def generate (fs : FileSystem) : Filenames → Option (List Char)
  | Filenames.single p => hash_file_content fs p
  | Filenames.listOf ps => (ps.mapM (hash_file_content fs)).map hash_strings

theorem hash_strings_singleton (x : List Char) :
    hash_strings [x] = hash_string x := by
  simp [hash_strings, hash_string, sortLe, insertLe]

/-! ## Model of datasafe.loi

The validating cascade of AbstractLoiChecker subclasses is embedded as a
function over an enumeration of the checker classes.  A checker object
carries an ignore_check string and a next_checker reference; since every
attachment of a next checker (in an init method, in a _check method, or
during ignore_check propagation) runs the next_checker property setter
with the current ignore value, and since the ignore value itself is copied
unchanged along the chain, the run-time behaviour is a function of the
class, the ignore string and the input string: a next checker whose str()
contains the nonempty ignore value is discarded together with the whole
chain behind it, exactly as the property setter does. -/

/-- Checker classes that occur as nodes of the validation chain, including
the plain AbstractChecker subclass IsNumberChecker that the info sample
and info calculation checkers attach as next checker. -/
inductive CheckerClass where
  | LoiChecker
  | LoiTypeChecker
  | LoiRecChecker
  | LoiDsChecker
  | LoiExpChecker
  | BaSaNumberChecker
  | LoiExpMethodChecker
  | LoiMeasurementNumberChecker
  | LoiCalcChecker
  | LoiCalcObjectNumberChecker
  | LoiImgChecker
  | LoiInfoChecker
  | LoiInfoKindChecker
  | LoiInfoProjectChecker
  | LoiInfoPublicationChecker
  | LoiInfoGrantChecker
  | LoiInfoDeviceChecker
  | LoiInfoChemicalChecker
  | LoiInfoPersonChecker
  | LoiInfoSampleChecker
  | LoiInfoCalculationChecker
  | IsNumberChecker
deriving DecidableEq

/-- Python class name of a checker class. -/
def clsName : CheckerClass → String
  | .LoiChecker => "LoiChecker"
  | .LoiTypeChecker => "LoiTypeChecker"
  | .LoiRecChecker => "LoiRecChecker"
  | .LoiDsChecker => "LoiDsChecker"
  | .LoiExpChecker => "LoiExpChecker"
  | .BaSaNumberChecker => "BaSaNumberChecker"
  | .LoiExpMethodChecker => "LoiExpMethodChecker"
  | .LoiMeasurementNumberChecker => "LoiMeasurementNumberChecker"
  | .LoiCalcChecker => "LoiCalcChecker"
  | .LoiCalcObjectNumberChecker => "LoiCalcObjectNumberChecker"
  | .LoiImgChecker => "LoiImgChecker"
  | .LoiInfoChecker => "LoiInfoChecker"
  | .LoiInfoKindChecker => "LoiInfoKindChecker"
  | .LoiInfoProjectChecker => "LoiInfoProjectChecker"
  | .LoiInfoPublicationChecker => "LoiInfoPublicationChecker"
  | .LoiInfoGrantChecker => "LoiInfoGrantChecker"
  | .LoiInfoDeviceChecker => "LoiInfoDeviceChecker"
  | .LoiInfoChemicalChecker => "LoiInfoChemicalChecker"
  | .LoiInfoPersonChecker => "LoiInfoPersonChecker"
  | .LoiInfoSampleChecker => "LoiInfoSampleChecker"
  | .LoiInfoCalculationChecker => "LoiInfoCalculationChecker"
  | .IsNumberChecker => "IsNumberChecker"

/-- Python str() of a checker instance, as tested by the next_checker
property setter.  The memory address is run-time dependent; a fixed
representative is used, which is immaterial for the class-name ignore
values the source works with (hexadecimal address digits cannot complete a
class-name match). -/
def pyObjectStr (c : CheckerClass) : List Char :=
  ("<datasafe.loi." ++ clsName c ++ " object at 0x7f9b1c2d3e40>").data

/-- Model of IsNumberChecker (re.fullmatch of one-or-more digits).  The
Python digit class also covers non-ASCII decimal digits; the model uses
ASCII digits, which agree on all identifiers considered. -/
def IsNumberChecker_check (s : List Char) : Bool :=
  !s.isEmpty && s.all Char.isDigit

/-- Model of IsDateChecker: four digits, dash, 0 or 1, digit, dash, 0 to
3, digit (re.fullmatch semantics fixes the length to ten). -/
def IsDateChecker_check : List Char → Bool
  | [a, b, c, d, e, f, g, h, i, j] =>
    a.isDigit && b.isDigit && c.isDigit && d.isDigit && e == '-' &&
      (f == '0' || f == '1') && g.isDigit && h == '-' &&
      (i == '0' || i == '1' || i == '2' || i == '3') && j.isDigit
  | _ => false

/-- Model of IsFriendlyStringChecker: one or more lowercase letters,
digits, dash or underscore. -/
def IsFriendlyStringChecker_check (s : List Char) : Bool :=
  !s.isEmpty && s.all (fun c => c.isLower || c.isDigit || c == '-' || c == '_')

/-- Model of LoiStartsWithCorrectRootChecker._check: StartsWithChecker
with pattern root + root_issuer_separator, that is "42.". -/
def LoiStartsWithCorrectRootChecker_check (s : List Char) : Bool :=
  "42.".data.isPrefixOf s

/-- List of LOI types accepted by LoiTypeChecker. -/
def loiTypeList : List (List Char) := ["ds".data, "rec".data, "img".data, "info".data]

/-- List of dataset kinds accepted by LoiDsChecker. -/
def loiDsKindList : List (List Char) := ["exp".data, "calc".data]

/-- List accepted by BaSaChecker. -/
def baSaList : List (List Char) := ["ba".data, "sa".data]

/-- List of methods accepted by LoiExpMethodChecker. -/
def expMethodList : List (List Char) := ["cwepr".data, "trepr".data]

/-- List of calc kinds accepted by LoiCalcChecker. -/
def calcKindList : List (List Char) := ["geo".data, "result".data]

/-- List of initials accepted by LoiInfoChecker. -/
def infoInitialsList : List (List Char) :=
  ["tb".data, "ms".data, "jp".data, "dm".data, "cm".data]

/-- List of kinds accepted by LoiInfoKindChecker. -/
def infoKindList : List (List Char) :=
  ["sample".data, "calculation".data, "project".data, "publication".data,
   "grant".data, "device".data, "chemical".data, "person".data]

/-- List accepted by LoiInfoSampleChecker. -/
def infoSampleList : List (List Char) :=
  ["batch".data, "sample".data, "substrate".data, "synthesis".data,
   "cell".data, "tube".data]

/-- List accepted by LoiInfoCalculationChecker. -/
def infoCalculationList : List (List Char) :=
  ["molecule".data, "geometry".data, "calculation".data]

/-- Checker class instantiated by LoiTypeChecker._check through
utils.object_from_name with name "Loi" + segment.capitalize() +
"Checker"; only evaluated for segments of the type list. -/
def loiTypeNext (seg : List Char) : CheckerClass :=
  if seg == "ds".data then .LoiDsChecker
  else if seg == "rec".data then .LoiRecChecker
  else if seg == "img".data then .LoiImgChecker
  else .LoiInfoChecker

/-- Checker class instantiated by LoiDsChecker._check through
utils.object_from_name; only evaluated for segments of the kind list. -/
def loiDsNext (seg : List Char) : CheckerClass :=
  if seg == "exp".data then .LoiExpChecker else .LoiCalcChecker

/-- Checker class instantiated by LoiInfoKindChecker._check through
utils.object_from_name with name "LoiInfo" + segment.capitalize() +
"Checker"; only evaluated for segments of the info kind list. -/
def loiInfoKindNext (seg : List Char) : CheckerClass :=
  if seg == "sample".data then .LoiInfoSampleChecker
  else if seg == "calculation".data then .LoiInfoCalculationChecker
  else if seg == "project".data then .LoiInfoProjectChecker
  else if seg == "publication".data then .LoiInfoPublicationChecker
  else if seg == "grant".data then .LoiInfoGrantChecker
  else if seg == "device".data then .LoiInfoDeviceChecker
  else if seg == "chemical".data then .LoiInfoChemicalChecker
  else .LoiInfoPersonChecker

/-- Model of the Python substring test (pat in s). -/
def pyInStr (pat : List Char) : List Char → Bool
  | [] => pat.isEmpty
  | c :: rest => pat.isPrefixOf (c :: rest) || pyInStr pat rest

/-- One checker invocation on its segment: the _check verdict together
with the next_checker attribute as it stands after _check ran (several
checkers assign next_checker inside _check; the others keep the value
given in their init method, or none). -/
def checkSeg : CheckerClass → List Char → Bool × Option CheckerClass
  | .LoiChecker, seg =>
    (LoiStartsWithCorrectRootChecker_check seg, some .LoiTypeChecker)
  | .LoiTypeChecker, seg =>
    if loiTypeList.contains seg then (true, some (loiTypeNext seg))
    else (false, none)
  | .LoiRecChecker, seg => (IsNumberChecker_check seg, none)
  | .LoiDsChecker, seg =>
    if loiDsKindList.contains seg then (true, some (loiDsNext seg))
    else (false, none)
  | .LoiExpChecker, seg =>
    if IsDateChecker_check seg then (true, some .LoiExpMethodChecker)
    else (baSaList.contains seg, some .BaSaNumberChecker)
  | .BaSaNumberChecker, seg =>
    (IsNumberChecker_check seg, some .LoiExpMethodChecker)
  | .LoiExpMethodChecker, seg =>
    (expMethodList.contains seg, some .LoiMeasurementNumberChecker)
  | .LoiMeasurementNumberChecker, seg => (IsNumberChecker_check seg, none)
  | .LoiCalcChecker, seg =>
    (calcKindList.contains seg, some .LoiCalcObjectNumberChecker)
  | .LoiCalcObjectNumberChecker, seg => (IsNumberChecker_check seg, none)
  | .LoiImgChecker, _ => (true, none)
  | .LoiInfoChecker, seg =>
    (infoInitialsList.contains seg, some .LoiInfoKindChecker)
  | .LoiInfoKindChecker, seg =>
    if infoKindList.contains seg then (true, some (loiInfoKindNext seg))
    else (false, none)
  | .LoiInfoProjectChecker, seg => (IsFriendlyStringChecker_check seg, none)
  | .LoiInfoPublicationChecker, seg => (IsFriendlyStringChecker_check seg, none)
  | .LoiInfoGrantChecker, seg => (IsFriendlyStringChecker_check seg, none)
  | .LoiInfoDeviceChecker, seg => (IsFriendlyStringChecker_check seg, none)
  | .LoiInfoChemicalChecker, seg => (IsFriendlyStringChecker_check seg, none)
  | .LoiInfoPersonChecker, seg => (IsFriendlyStringChecker_check seg, none)
  | .LoiInfoSampleChecker, seg =>
    (infoSampleList.contains seg, some .IsNumberChecker)
  | .LoiInfoCalculationChecker, seg =>
    (infoCalculationList.contains seg, some .IsNumberChecker)
  | .IsNumberChecker, seg => (IsNumberChecker_check seg, none)

/-- Model of AbstractLoiChecker.check running a checker of the given class
with the given ignore_check value on a string: the first segment is
checked by the class, and when the verdict is true and a next checker is
attached the remaining segments are handed over.  Handing over is subject
to the next_checker property setter test: when the nonempty ignore value
occurs in str() of the next checker, the next checker and the whole chain
behind it are discarded and the verdict so far is returned.  The plain
AbstractChecker node IsNumberChecker checks its whole input without
splitting and has no next checker.  The structural fuel argument bounds
the recursion depth. -/
def checkFuel (fuel : Nat) (c : CheckerClass) (ignore s : List Char) : Bool :=
  match fuel with
  | 0 => false
  | fuel + 1 =>
    if c = CheckerClass.IsNumberChecker then IsNumberChecker_check s
    else
      match checkSeg c ((pySplit '/' s).headD []) with
      | (false, _) => false
      | (true, none) => true
      | (true, some nc) =>
        if !ignore.isEmpty && pyInStr ignore (pyObjectStr nc) then true
        else checkFuel fuel nc ignore (pyJoin '/' (pySplit '/' s).tail)

/-- Model of LoiChecker().check after assigning the given ignore_check
value (empty for the plain validator).  The fuel length + 2 always
suffices: every recursive step removes the first segment and its
separator, and no recursion happens from the empty string because no
checker answers true with a successor on an empty segment. -/
def loiCheckL (ignore s : List Char) : Bool :=
  checkFuel (s.length + 2) CheckerClass.LoiChecker ignore s

/-- Model of datasafe.loi.LoiChecker().check on a Lean string. -/
def LoiChecker_check (loi : String) : Bool := loiCheckL [] loi.data

/-- Fields produced by loi.Parser.parse. -/
structure ParsedLoi where
  root : List Char
  issuer : List Char
  type : List Char
  id : List Char
deriving DecidableEq

/-- Model of loi.Parser.parse.  The value none corresponds to raising
MissingLoiError (empty input) or InvalidLoiError (checker failure); the
parser runs LoiChecker with ignore_check assigned "LoiDsChecker".  The
indexed accesses of the source are modelled with defaults the source never
reaches: after a successful check the first segment starts with "42." and
the string contains a separator. -/
def Parser_parse (loi : List Char) : Option ParsedLoi :=
  if loi.isEmpty then none
  else if !loiCheckL ("LoiDsChecker".data) loi then none
  else
    let parts := pySplit '/' loi
    let rootIssuer := pySplit '.' (parts.headD [])
    some { root := rootIssuer.headD [], issuer := rootIssuer.getD 1 [],
           type := parts.getD 1 [], id := pyJoin '/' (parts.drop 2) }

theorem checkFuel_succ (n : Nat) (c : CheckerClass) (ig s : List Char) :
    checkFuel (n + 1) c ig s =
      (if c = CheckerClass.IsNumberChecker then IsNumberChecker_check s
       else
         match checkSeg c ((pySplit '/' s).headD []) with
         | (false, _) => false
         | (true, none) => true
         | (true, some nc) =>
           if !ig.isEmpty && pyInStr ig (pyObjectStr nc) then true
           else checkFuel n nc ig (pyJoin '/' (pySplit '/' s).tail)) := rfl

theorem checkFuel_mono : ∀ n m (c : CheckerClass) (ig s : List Char),
    n ≤ m → checkFuel n c ig s = true → checkFuel m c ig s = true := by
  intro n
  induction n with
  | zero => intro m c ig s _ h; simp [checkFuel] at h
  | succ k ih =>
    intro m c ig s hnm h
    obtain ⟨m2, rfl⟩ : ∃ m2, m = m2 + 1 := ⟨m - 1, by omega⟩
    rw [checkFuel_succ] at h ⊢
    by_cases hc : c = CheckerClass.IsNumberChecker
    · rw [if_pos hc] at h ⊢; exact h
    · rw [if_neg hc] at h ⊢
      rcases hcs : checkSeg c ((pySplit '/' s).headD []) with ⟨res, nc⟩
      rw [hcs] at h
      cases res with
      | false => simp at h
      | true =>
        cases nc with
        | none => rfl
        | some nc2 =>
          simp only at h
          show (if (!ig.isEmpty && pyInStr ig (pyObjectStr nc2)) = true
            then true
            else checkFuel m2 nc2 ig (pyJoin '/' (pySplit '/' s).tail)) = true
          by_cases hig : (!ig.isEmpty && pyInStr ig (pyObjectStr nc2)) = true
          · rw [if_pos hig]
          · rw [if_neg hig] at h ⊢
            exact ih _ _ _ _ (by omega) h

theorem checkFuel_ignore_mono : ∀ n (c : CheckerClass) (ig s : List Char),
    checkFuel n c [] s = true → checkFuel n c ig s = true := by
  intro n
  induction n with
  | zero => intro c ig s h; simp [checkFuel] at h
  | succ k ih =>
    intro c ig s h
    rw [checkFuel_succ] at h ⊢
    by_cases hc : c = CheckerClass.IsNumberChecker
    · rw [if_pos hc] at h ⊢; exact h
    · rw [if_neg hc] at h ⊢
      rcases hcs : checkSeg c ((pySplit '/' s).headD []) with ⟨res, nc⟩
      rw [hcs] at h
      cases res with
      | false => simp at h
      | true =>
        cases nc with
        | none => rfl
        | some nc2 =>
          simp only at h
          rw [if_neg (by simp)] at h
          show (if (!ig.isEmpty && pyInStr ig (pyObjectStr nc2)) = true
            then true
            else checkFuel k nc2 ig (pyJoin '/' (pySplit '/' s).tail)) = true
          by_cases hig : (!ig.isEmpty && pyInStr ig (pyObjectStr nc2)) = true
          · rw [if_pos hig]
          · rw [if_neg hig]
            exact ih _ _ _ h

theorem checkFuel_root_prefix : ∀ n (ig s : List Char),
    checkFuel n CheckerClass.LoiChecker ig s = true →
    "42.".data.isPrefixOf ((pySplit '/' s).headD []) = true := by
  intro n ig s h
  cases n with
  | zero => simp [checkFuel] at h
  | succ k =>
    rw [checkFuel_succ] at h
    rw [if_neg (by simp)] at h
    rcases hpre : LoiStartsWithCorrectRootChecker_check
        ((pySplit '/' s).headD []) with _ | _
    · rw [show checkSeg CheckerClass.LoiChecker ((pySplit '/' s).headD []) =
        (LoiStartsWithCorrectRootChecker_check ((pySplit '/' s).headD []),
          some CheckerClass.LoiTypeChecker) from rfl, hpre] at h
      simp at h
    · exact hpre

/-! ## Model of datasafe.manifest.Manifest

Only the parts the claims touch are embedded: the file lists, the two
checksum values and the error behaviour of to_dict and check_integrity.
The format detector never influences these fields (its output goes into
separate format entries of the dict), so it is elided from the dict model.
-/

/-- Exception kinds of datasafe.exceptions raised by the operations
modelled here. -/
inductive DsError where
  | missingInformation (message : List Char)
  | noFile (message : List Char)
deriving DecidableEq

/-- Attributes of a manifest.Manifest object relevant to the claims. -/
structure ManifestState where
  loi : List Char
  data_filenames : List (List Char)
  metadata_filenames : List (List Char)
  data_checksum : List Char
  checksum : List Char
deriving DecidableEq

/-- Part of the ordered dict built by Manifest.to_dict that the claims
concern: the recorded file names, the LOI, and the two checksum record
values (span data+metadata and span data). -/
structure ManifestDict where
  data_names : List (List Char)
  metadata_names : List (List Char)
  loi : List Char
  checksum_value : List Char
  data_checksum_value : List Char
deriving DecidableEq

/-- Model of Manifest._generate_checksum on a list of filenames:
Generator.generate applied to the list.  Every call site passes files
already checked to exist, for which generate returns some; the default
covers the unreachable none. -/
def generateChecksum (fs : FileSystem) (ps : List (List Char)) : List Char :=
  (generate fs (Filenames.listOf ps)).getD []

/-- Model of Manifest.to_dict: raises MissingInformationError when the
data filename list is empty, NoFileError at the first listed data or
metadata file absent from disk, and otherwise records the filenames and
appends the two checksum records (data+metadata and data only). -/
def Manifest.to_dict (fs : FileSystem) (m : ManifestState) :
    Except DsError ManifestDict :=
  if m.data_filenames.isEmpty then
    Except.error (DsError.missingInformation "Data filenames missing".data)
  else
    match m.data_filenames.find? (fun p => !(fsLookup fs p).isSome) with
    | some p => Except.error (DsError.noFile p)
    | none =>
      match m.metadata_filenames.find? (fun p => !(fsLookup fs p).isSome) with
      | some p => Except.error (DsError.noFile p)
      | none =>
        Except.ok
          { data_names := m.data_filenames,
            metadata_names := m.metadata_filenames,
            loi := m.loi,
            checksum_value :=
              generateChecksum fs (m.data_filenames ++ m.metadata_filenames),
            data_checksum_value := generateChecksum fs m.data_filenames }

/-- Verdict dict returned by Manifest.check_integrity. -/
structure Integrity where
  data : Bool
  all : Bool
deriving DecidableEq

/-- Model of the method Manifest.check_integrity: the method reads the five
attributes, raises MissingInformationError unless the two file lists and
the two stored checksums are all non-empty, recomputes both checksums from
the files currently on disk (an absent file raises FileNotFoundError while
hashing, modelled by the fallback branch) and compares them with the
stored values by string equality. -/
def Manifest.check_integrity (fs : FileSystem) (m : ManifestState) :
    Except DsError Integrity :=
  if m.data_filenames.isEmpty || m.metadata_filenames.isEmpty ||
      m.data_checksum.isEmpty || m.checksum.isEmpty then
    Except.error (DsError.missingInformation "Some information missing".data)
  else
    match
      generate fs (Filenames.listOf (m.data_filenames ++ m.metadata_filenames)),
      generate fs (Filenames.listOf m.data_filenames) with
    | some checksum, some data_checksum =>
      Except.ok { data := data_checksum == m.data_checksum,
                  all := checksum == m.checksum }
    | _, _ => Except.error (DsError.noFile "File does not exist".data)

/-- Model of the method call itself, returning the state of the manifest
object after the call next to the outcome: the method body reads the five
attributes and assigns none of them, so the state component is the
received state unchanged. -/
def Manifest.check_integrity_run (fs : FileSystem) (m : ManifestState) :
    ManifestState × Except DsError Integrity :=
  (m, Manifest.check_integrity fs m)

/-! ## Model of datasafe.server.StorageBackend slot allocation -/

/-- Model of the Python builtin int() on directory names.  The builtin
additionally accepts surrounding whitespace and a sign, which cannot occur
in the numeral names the backend creates; none corresponds to raising
ValueError. -/
def pyInt (s : List Char) : Option Nat :=
  if !s.isEmpty && s.all Char.isDigit then
    some (s.foldl (fun acc c => 10 * acc + (c.toNat - 48)) 0)
  else none

/-- Boolean numeric comparison used for sorting ids. -/
def natLeB (a b : Nat) : Bool := decide (a ≤ b)

/-- Model of StorageBackend.get_highest_id applied to the list of child
names of the directory: every name is converted with int() first, the
numbers are sorted and the last is taken; 0 when the directory is empty. -/
def get_highest_id (contents : List (List Char)) : Option Nat :=
  (contents.mapM pyInt).map (fun ints =>
    if ints.isEmpty then 0 else (sortLe natLeB ints).getLastD 0)

/-- Model of the Python builtin str() on the nonnegative integers used as
slot names. -/
def natStr (n : Nat) : List Char := Nat.toDigits 10 n

/-- Model of os.path.join for a path and a child name. -/
def pyPathJoin (p x : List Char) : List Char :=
  if p.isEmpty then x
  else if p.getLastD ' ' == '/' then p ++ x else p ++ '/' :: x

/-- Model of StorageBackend.create_next_id applied to the child names of
the directory at the given path: computes the highest id plus one and
returns the path of the created child directory. -/
def create_next_id (path : List Char) (contents : List (List Char)) :
    Option (List Char) :=
  (get_highest_id contents).map (fun h => pyPathJoin path (natStr (h + 1)))

theorem getLastD_sorted_max (l : List Nat)
    (hs : l.Pairwise (fun a b => natLeB a b = true)) (hne : l ≠ []) :
    l.getLastD 0 = l.foldr max 0 := by
  induction l with
  | nil => exact absurd rfl hne
  | cons x xs ih =>
    rcases List.pairwise_cons.mp hs with ⟨hx, hxs⟩
    cases xs with
    | nil => simp
    | cons y ys =>
      have hxy : x ≤ y := by
        have := hx y (List.mem_cons_self y ys)
        simpa [natLeB] using this
      have hrec := ih hxs (by simp)
      have hyF : y ≤ (y :: ys).foldr max 0 := by
        simp only [List.foldr_cons]
        exact Nat.le_max_left _ _
      calc (x :: y :: ys).getLastD 0 = (y :: ys).getLastD 0 := by simp
    _ = (y :: ys).foldr max 0 := hrec
    _ = max x ((y :: ys).foldr max 0) :=
        (Nat.max_eq_right (le_trans hxy hyF)).symm
    _ = (x :: y :: ys).foldr max 0 := by simp

theorem get_highest_id_max (contents : List (List Char)) (ns : List Nat)
    (h : contents.mapM pyInt = some ns) :
    get_highest_id contents = some (ns.foldr max 0) := by
  rw [get_highest_id, h]
  show some (if ns.isEmpty = true then 0
    else (sortLe natLeB ns).getLastD 0) = some (ns.foldr max 0)
  congr 1
  cases hns : ns with
  | nil => simp
  | cons n ns2 =>
    rw [if_neg (by simp)]
    have htot : ∀ a b : Nat, natLeB a b = false → natLeB b a = true := by
      intro a b hab
      simp [natLeB] at hab ⊢
      omega
    have htrans : ∀ a b c : Nat,
        natLeB a b = true → natLeB b c = true → natLeB a c = true := by
      intro a b c hab hbc
      simp [natLeB] at hab hbc ⊢
      omega
    have hperm := sortLe_perm natLeB (n :: ns2)
    have hsorted := sortLe_sorted natLeB htot htrans (n :: ns2)
    have hne : sortLe natLeB (n :: ns2) ≠ [] := by
      intro he
      have := hperm.length_eq
      rw [he] at this
      simp at this
    rw [getLastD_sorted_max _ hsorted hne]
    haveI : LeftCommutative (max : Nat → Nat → Nat) := max_left_commutative
    exact hperm.foldr_eq 0

theorem checkFuel_cascade_step (n : Nat) (c nc : CheckerClass)
    (ig seg rest : List Char)
    (hc : ¬ c = CheckerClass.IsNumberChecker)
    (hseg : '/' ∉ seg)
    (hres : checkSeg c seg = (true, some nc))
    (hig : (!ig.isEmpty && pyInStr ig (pyObjectStr nc)) = false) :
    checkFuel (n + 1) c ig (seg ++ '/' :: rest) = checkFuel n nc ig rest := by
  rw [checkFuel_succ, if_neg hc, pySplit_append '/' seg rest hseg]
  rw [show ((seg :: pySplit '/' rest).headD []) = seg from rfl]
  rw [hres]
  show (if (!ig.isEmpty && pyInStr ig (pyObjectStr nc)) = true then true
    else checkFuel n nc ig (pyJoin '/' (seg :: pySplit '/' rest).tail)) = _
  rw [if_neg (by rw [hig]; simp)]
  rw [show (seg :: pySplit '/' rest).tail = pySplit '/' rest from rfl]
  rw [pyJoin_pySplit]

theorem checkFuel_cascade_stop (n : Nat) (c nc : CheckerClass)
    (ig seg rest : List Char)
    (hc : ¬ c = CheckerClass.IsNumberChecker)
    (hseg : '/' ∉ seg)
    (hres : checkSeg c seg = (true, some nc))
    (hig : (!ig.isEmpty && pyInStr ig (pyObjectStr nc)) = true) :
    checkFuel (n + 1) c ig (seg ++ '/' :: rest) = true := by
  rw [checkFuel_succ, if_neg hc, pySplit_append '/' seg rest hseg]
  rw [show ((seg :: pySplit '/' rest).headD []) = seg from rfl]
  rw [hres]
  show (if (!ig.isEmpty && pyInStr ig (pyObjectStr nc)) = true then true
    else checkFuel n nc ig (pyJoin '/' (seg :: pySplit '/' rest).tail)) = _
  rw [if_pos hig]

/-! ## Claim theorems -/

set_option maxRecDepth 1000000

/-- C7: the validating cascade accepts the three valid literal identifiers
of the acceptance table and rejects the four invalid ones (wrong root,
non-numeric measurement number, uppercase friendly string, non-numeric rec
number). -/
theorem claim_C7_acceptance_table :
    LoiChecker_check "42.1001/ds/exp/sa/42/cwepr/1" = true ∧
    LoiChecker_check "42.1001/ds/exp/2020-04-25/cwepr/1" = true ∧
    LoiChecker_check "42.1001/rec/42" = true ∧
    LoiChecker_check "43.1001/ds/exp/sa/42/cwepr/1" = false ∧
    LoiChecker_check "42.1001/ds/exp/sa/42/cwepr/a" = false ∧
    LoiChecker_check "42.1001/info/tb/project/FOO" = false ∧
    LoiChecker_check "42.1001/rec/foo" = false := by
  refine ⟨?_, ?_, ?_, ?_, ?_, ?_, ?_⟩ <;> decide

/-- C1 counterexample: with ignore_check assigned the class name of the
experiment-method checker, the cascade accepts a string whose
measurement-number segment yy fails the segment test of the following
checker in the chain (and even a string lacking all segments after the
date), while the plain cascade rejects it; so the remainder of the cascade
did not execute on the following checker. -/
theorem claim_C1_counterexample :
    loiCheckL "LoiExpMethodChecker".data
      "42.1001/ds/exp/2020-04-25/xx/yy".data = true ∧
    checkSeg CheckerClass.LoiMeasurementNumberChecker "yy".data =
      (false, none) ∧
    loiCheckL [] "42.1001/ds/exp/2020-04-25/xx/yy".data = false ∧
    loiCheckL "LoiExpMethodChecker".data
      "42.1001/ds/exp/2020-04-25".data = true := by
  refine ⟨?_, ?_, ?_, ?_⟩ <;> decide

/-- C1 amended: assigning a checker class name to ignore_check on
LoiChecker propagates transitively, also into checkers instantiated
dynamically later in the chain, but instead of skipping only the named
segment test it truncates the cascade where the named checker would be
attached: the named checker and every checker after it are dropped, so all
remaining segments pass unchecked.  With the experiment-method checker
named, every string 42.1001/ds/exp/2020-04-25/<anything> is accepted,
whatever follows the date, and so is the prefix ending at the date. -/
theorem claim_C1_amended (rest : List Char) :
    loiCheckL "LoiExpMethodChecker".data
      ("42.1001/ds/exp/2020-04-25/".data ++ rest) = true ∧
    loiCheckL "LoiExpMethodChecker".data
      "42.1001/ds/exp/2020-04-25".data = true := by
  constructor
  · show checkFuel _ CheckerClass.LoiChecker _ _ = true
    have h4 : checkFuel 4 CheckerClass.LoiChecker "LoiExpMethodChecker".data
        ("42.1001/ds/exp/2020-04-25/".data ++ rest) = true := by
      rw [show ("42.1001/ds/exp/2020-04-25/".data ++ rest) =
        ("42.1001".data ++ '/' :: ("ds".data ++ '/' :: ("exp".data ++
          '/' :: ("2020-04-25".data ++ '/' :: rest)))) from rfl]
      rw [show (4 : Nat) = 3 + 1 from rfl,
        checkFuel_cascade_step 3 CheckerClass.LoiChecker
          CheckerClass.LoiTypeChecker _ _ _ (by decide) (by decide)
          (by decide) (by decide)]
      rw [show (3 : Nat) = 2 + 1 from rfl,
        checkFuel_cascade_step 2 CheckerClass.LoiTypeChecker
          CheckerClass.LoiDsChecker _ _ _ (by decide) (by decide)
          (by decide) (by decide)]
      rw [show (2 : Nat) = 1 + 1 from rfl,
        checkFuel_cascade_step 1 CheckerClass.LoiDsChecker
          CheckerClass.LoiExpChecker _ _ _ (by decide) (by decide)
          (by decide) (by decide)]
      exact checkFuel_cascade_stop 0 CheckerClass.LoiExpChecker
        CheckerClass.LoiExpMethodChecker _ _ _ (by decide) (by decide)
        (by decide) (by decide)
    refine checkFuel_mono 4 _ _ _ _ ?_ h4
    simp [List.length_append]
  · decide

/-- C6: hash_strings is independent of the order of its input: it equals
hash_strings of the reversal and of any permutation, because the list is
sorted before hashing. -/
theorem claim_C6_order_independence (L P : List (List Char))
    (h : List.Perm L P) :
    hash_strings L = hash_strings L.reverse ∧
    hash_strings L = hash_strings P := by
  constructor
  · rw [hash_strings, hash_strings,
      sortLe_lexLe_eq_of_perm L L.reverse (L.reverse_perm).symm]
  · rw [hash_strings, hash_strings, sortLe_lexLe_eq_of_perm L P h]

/-- Witness for C6 at a concrete two-element list and its swap. -/
theorem claim_C6_witness :
    List.Perm ["foo".data, "bar".data] ["bar".data, "foo".data] ∧
    (hash_strings ["foo".data, "bar".data] =
        hash_strings (["foo".data, "bar".data]).reverse ∧
      hash_strings ["foo".data, "bar".data] =
        hash_strings ["bar".data, "foo".data]) :=
  ⟨List.Perm.swap "bar".data "foo".data [],
   claim_C6_order_independence _ _ (List.Perm.swap "bar".data "foo".data [])⟩

/-- C4 counterexample: with one empty file named test on disk, generate on
the bare path returns the md5 digest of the empty content while generate
on the one-element list returns the checksum of that checksum, so a
one-element list does not behave like the bare path. -/
theorem claim_C4_counterexample :
    generate [("test".data, ([] : List Nat))]
      (Filenames.single "test".data) =
      some "d41d8cd98f00b204e9800998ecf8427e".data ∧
    generate [("test".data, ([] : List Nat))]
      (Filenames.listOf ["test".data]) =
      some "74be16979710d4c4e7c6647856088456".data ∧
    generate [("test".data, ([] : List Nat))]
      (Filenames.listOf ["test".data]) ≠
      generate [("test".data, ([] : List Nat))]
      (Filenames.single "test".data) := by
  refine ⟨?_, ?_, ?_⟩ <;> decide

/-- C4 amended: generate returns the content digest for a bare single
path; for a list of paths, also a one-element list, it computes the
per-file content digests and returns hash_strings of them, so a
one-element list yields the hash of the single digest string rather than
the digest itself, and several paths yield the checksum of checksums. -/
theorem claim_C4_amended (fs : FileSystem) (p : List Char)
    (ps : List (List Char)) :
    generate fs (Filenames.single p) = hash_file_content fs p ∧
    generate fs (Filenames.listOf [p]) =
      (hash_file_content fs p).map hash_string ∧
    generate fs (Filenames.listOf ps) =
      (ps.mapM (hash_file_content fs)).map hash_strings := by
  refine ⟨rfl, ?_, rfl⟩
  cases hfc : hash_file_content fs p with
  | none => simp [generate, List.mapM.loop, hfc]
  | some d =>
    simp [generate, List.mapM.loop, hfc, hash_strings_singleton]

/-- C10: for every identifier of the form 42.<issuer>/ds/<rest> with a
non-empty issuer free of separators and an arbitrary rest, Parser.parse
succeeds and returns type ds and id rest: the parser assigns ignore_check
the dataset-kind checker name, whereupon the next_checker setter discards
that checker together with the entire remaining cascade, so nothing after
the ds segment is validated. -/
theorem claim_C10_parse_ds_prefix (issuer rest : List Char)
    (_h1 : issuer ≠ []) (h2 : '/' ∉ issuer) :
    ∃ p, Parser_parse ("42.".data ++ issuer ++ "/ds/".data ++ rest) = some p ∧
      p.type = "ds".data ∧ p.id = rest := by
  have hseg : '/' ∉ ("42.".data ++ issuer) := by
    intro hm
    rcases List.mem_append.mp hm with hm | hm
    · exact absurd hm (by decide)
    · exact h2 hm
  have hshape : "42.".data ++ issuer ++ "/ds/".data ++ rest =
      ("42.".data ++ issuer) ++ '/' :: ("ds".data ++ '/' :: rest) := by
    simp only [List.append_assoc]
    rfl
  have hroot : checkSeg CheckerClass.LoiChecker ("42.".data ++ issuer) =
      (true, some CheckerClass.LoiTypeChecker) := by
    have hp : LoiStartsWithCorrectRootChecker_check ("42.".data ++ issuer) =
        true := by
      rw [LoiStartsWithCorrectRootChecker_check, List.isPrefixOf_iff_prefix]
      exact List.prefix_append _ _
    rw [show checkSeg CheckerClass.LoiChecker ("42.".data ++ issuer) =
      (LoiStartsWithCorrectRootChecker_check ("42.".data ++ issuer),
        some CheckerClass.LoiTypeChecker) from rfl, hp]
  have hcheck2 : checkFuel 2 CheckerClass.LoiChecker "LoiDsChecker".data
      ("42.".data ++ issuer ++ "/ds/".data ++ rest) = true := by
    rw [hshape]
    rw [show (2 : Nat) = 1 + 1 from rfl,
      checkFuel_cascade_step 1 CheckerClass.LoiChecker
        CheckerClass.LoiTypeChecker _ _ _ (by decide) hseg hroot (by decide)]
    exact checkFuel_cascade_stop 0 CheckerClass.LoiTypeChecker
      CheckerClass.LoiDsChecker _ _ _ (by decide) (by decide) (by decide)
      (by decide)
  have hcheck : loiCheckL "LoiDsChecker".data
      ("42.".data ++ issuer ++ "/ds/".data ++ rest) = true := by
    rw [loiCheckL]
    exact checkFuel_mono 2 _ _ _ _ (by omega) hcheck2
  have hparts : pySplit '/' ("42.".data ++ issuer ++ "/ds/".data ++ rest) =
      ("42.".data ++ issuer) :: "ds".data :: pySplit '/' rest := by
    rw [hshape, pySplit_append _ _ _ hseg, pySplit_append _ _ _ (by decide)]
  have hne : ("42.".data ++ issuer ++ "/ds/".data ++ rest).isEmpty = false :=
    rfl
  have hne2 : ¬ (("42.".data ++ issuer ++ "/ds/".data ++ rest).isEmpty =
      true) := by
    rw [hne]
    simp
  have hnotp : ¬ ((!loiCheckL "LoiDsChecker".data
      ("42.".data ++ issuer ++ "/ds/".data ++ rest)) = true) := by
    rw [hcheck]
    simp
  refine ⟨⟨(pySplit '.' ("42.".data ++ issuer)).headD [],
    (pySplit '.' ("42.".data ++ issuer)).getD 1 [], "ds".data, rest⟩,
    ?_, rfl, rfl⟩
  rw [Parser_parse, if_neg hne2, if_neg hnotp, hparts]
  simp only [List.headD_cons, List.drop_succ_cons, List.drop_zero,
    List.getD_cons_succ, List.getD_cons_zero, pyJoin_pySplit]

/-- Witness for C10 at issuer 1001 and an id part that the plain cascade
would reject. -/
theorem claim_C10_witness :
    ("1001".data ≠ ([] : List Char) ∧ '/' ∉ "1001".data) ∧
    (∃ p, Parser_parse ("42.".data ++ "1001".data ++ "/ds/".data ++
        "exp/!!".data) = some p ∧
      p.type = "ds".data ∧ p.id = "exp/!!".data) :=
  ⟨⟨by decide, by decide⟩,
   claim_C10_parse_ds_prefix "1001".data "exp/!!".data (by decide)
     (by decide)⟩

/-- C2 counterexample: the identifier 42.10.01/rec/42 is accepted by the
cascade, but the parser splits its first segment at every dot, so the
re-serialization root + "." + issuer + "/" + type + "/" + id yields
42.10/rec/42 and does not reproduce the original string. -/
theorem claim_C2_counterexample :
    LoiChecker_check "42.10.01/rec/42" = true ∧
    Parser_parse "42.10.01/rec/42".data =
      some { root := "42".data, issuer := "10".data,
             type := "rec".data, id := "42".data } ∧
    "42".data ++ ('.' :: "10".data) ++ ('/' :: "rec".data) ++
      ('/' :: "42".data) ≠ "42.10.01/rec/42".data := by
  refine ⟨?_, ?_, ?_⟩ <;> decide

/-- C2 amended: re-serializing the parsed fields as root + "." + issuer +
"/" + type + "/" + id reproduces every accepted identifier whose first
segment contains exactly one dot and which contains at least two
separators; the counterexamples show both side conditions are needed (a
second dot is swallowed by the issuer split, and with fewer than three
segments the re-serialization appends a spurious separator). -/
theorem claim_C2_roundtrip (s : List Char)
    (hacc : loiCheckL [] s = true)
    (hdot : ((pySplit '/' s).headD []).count '.' = 1)
    (hsl : 2 ≤ s.count '/') :
    ∃ p, Parser_parse s = some p ∧
      p.root ++ ('.' :: p.issuer) ++ ('/' :: p.type) ++ ('/' :: p.id) = s := by
  have hacc2 : checkFuel (s.length + 2) CheckerClass.LoiChecker [] s = true :=
    hacc
  have hpre := checkFuel_root_prefix (s.length + 2) [] s hacc2
  rcases hps : pySplit '/' s with _ | ⟨p0, ps1⟩
  · exact absurd hps (pySplit_ne_nil '/' s)
  rcases ps1 with _ | ⟨p1, ps2⟩
  · have hl := pySplit_length '/' s
    rw [hps] at hl
    simp only [List.length_cons, List.length_nil] at hl
    omega
  rcases ps2 with _ | ⟨p2, ps⟩
  · have hl := pySplit_length '/' s
    rw [hps] at hl
    simp only [List.length_cons, List.length_nil] at hl
    omega
  rw [hps] at hpre hdot
  simp only [List.headD_cons] at hpre hdot
  obtain ⟨t0, ht0⟩ := List.isPrefixOf_iff_prefix.mp hpre
  have htdot : t0.count '.' = 0 := by
    have hd2 : List.count '.' ("42.".data ++ t0) = 1 := by
      rw [ht0]
      exact hdot
    rw [List.count_append] at hd2
    have h42 : List.count '.' ("42.".data) = 1 := by decide
    rw [h42] at hd2
    omega
  have hnodot : '.' ∉ t0 := List.count_eq_zero.mp htdot
  have hri : pySplit '.' p0 = ["42".data, t0] := by
    rw [← ht0, show "42.".data ++ t0 = "42".data ++ '.' :: t0 from rfl,
      pySplit_append '.' _ _ (by decide), pySplit_no_sep '.' t0 hnodot]
  have hds : loiCheckL "LoiDsChecker".data s = true := by
    rw [loiCheckL]
    exact checkFuel_ignore_mono _ _ _ _ hacc2
  have hsne : ¬ (s.isEmpty = true) := by
    cases s with
    | nil => simp at hsl
    | cons a as => simp
  have hnotp : ¬ ((!loiCheckL "LoiDsChecker".data s) = true) := by
    rw [hds]
    simp
  refine ⟨⟨"42".data, t0, p1, pyJoin '/' (p2 :: ps)⟩, ?_, ?_⟩
  · rw [Parser_parse, if_neg hsne, if_neg hnotp, hps]
    simp only [List.headD_cons]
    rw [hri]
    rfl
  · have hjoin : pyJoin '/' (pySplit '/' s) = s := pyJoin_pySplit '/' s
    rw [hps] at hjoin
    rw [← hjoin]
    have hj1 : pyJoin '/' (p0 :: p1 :: p2 :: ps) =
        p0 ++ '/' :: (p1 ++ '/' :: pyJoin '/' (p2 :: ps)) := rfl
    rw [hj1, ← ht0]
    simp [List.append_assoc]

/-- Witness for C2 at the accepted identifier 42.1001/rec/42, which
satisfies both side conditions. -/
theorem claim_C2_witness :
    (loiCheckL [] "42.1001/rec/42".data = true ∧
      ((pySplit '/' "42.1001/rec/42".data).headD []).count '.' = 1 ∧
      2 ≤ "42.1001/rec/42".data.count '/') ∧
    (∃ p, Parser_parse "42.1001/rec/42".data = some p ∧
      p.root ++ ('.' :: p.issuer) ++ ('/' :: p.type) ++ ('/' :: p.id) =
        "42.1001/rec/42".data) :=
  ⟨⟨by decide, by decide, by decide⟩,
   claim_C2_roundtrip "42.1001/rec/42".data (by decide) (by decide)
     (by decide)⟩

/-- C8: get_highest_id returns the maximum of the integer-parsed child
names of the parent directory, or 0 when the directory is empty, and
create_next_id creates and returns the child path named that maximum plus
one; for no children this is child 1, for children 1 and 5 it is child
6 (see the witness). -/
theorem claim_C8_slot_allocation (path : List Char)
    (contents : List (List Char)) (ns : List Nat)
    (h : contents.mapM pyInt = some ns) :
    get_highest_id contents = some (ns.foldr max 0) ∧
    create_next_id path contents =
      some (pyPathJoin path (natStr (ns.foldr max 0 + 1))) := by
  refine ⟨get_highest_id_max contents ns h, ?_⟩
  rw [create_next_id, get_highest_id_max contents ns h]
  rfl

/-- Witness for C8: the empty parent yields child 1; the parent with
children 1 and 5 yields child 6. -/
theorem claim_C8_witness :
    (([] : List (List Char)).mapM pyInt = some [] ∧
      ["1".data, "5".data].mapM pyInt = some [1, 5]) ∧
    create_next_id "parent".data [] = some "parent/1".data ∧
    get_highest_id ["1".data, "5".data] = some 5 ∧
    create_next_id "parent".data ["1".data, "5".data] =
      some "parent/6".data := by
  refine ⟨⟨by decide, by decide⟩, ?_, ?_, ?_⟩
  · exact (claim_C8_slot_allocation "parent".data [] [] (by decide)).2.trans
      (by decide)
  · exact (claim_C8_slot_allocation "parent".data ["1".data, "5".data]
      [1, 5] (by decide)).1.trans (by decide)
  · exact (claim_C8_slot_allocation "parent".data ["1".data, "5".data]
      [1, 5] (by decide)).2.trans (by decide)

theorem mapM_loop_hash (fs : FileSystem) (ps : List (List Char))
    (acc : List (List Char))
    (h : ∀ p ∈ ps, (fsLookup fs p).isSome = true) :
    List.mapM.loop (hash_file_content fs) ps acc =
      some (acc.reverse ++
        ps.map (fun p => md5hex ((fsLookup fs p).getD []))) := by
  induction ps generalizing acc with
  | nil => simp [List.mapM.loop]
  | cons p ps2 ih =>
    have hp := h p (List.mem_cons_self p ps2)
    obtain ⟨content, hc⟩ := Option.isSome_iff_exists.mp hp
    have ht := ih (md5hex content :: acc)
      (fun q hq => h q (List.mem_cons_of_mem p hq))
    simp [List.mapM.loop, hash_file_content, hc, ht]

theorem mapM_hash_isSome (fs : FileSystem) (ps : List (List Char))
    (h : ∀ p ∈ ps, (fsLookup fs p).isSome = true) :
    ps.mapM (hash_file_content fs) =
      some (ps.map (fun p => md5hex ((fsLookup fs p).getD []))) := by
  have := mapM_loop_hash fs ps [] h
  simpa [List.mapM] using this

theorem generate_eq_some (fs : FileSystem) (ps : List (List Char))
    (h : ∀ p ∈ ps, (fsLookup fs p).isSome = true) :
    generate fs (Filenames.listOf ps) = some (generateChecksum fs ps) := by
  rw [generateChecksum, generate, mapM_hash_isSome fs ps h]
  rfl

theorem md5hex_ne_nil (msg : List Nat) : md5hex msg ≠ [] := by
  rw [md5hex]
  simp [wordHexLE]

theorem generateChecksum_ne_nil (fs : FileSystem) (ps : List (List Char))
    (h : ∀ p ∈ ps, (fsLookup fs p).isSome = true) :
    generateChecksum fs ps ≠ [] := by
  rw [generateChecksum, generate, mapM_hash_isSome fs ps h]
  exact md5hex_ne_nil _

theorem to_dict_ok (fs : FileSystem) (m : ManifestState) (d : ManifestDict)
    (hok : Manifest.to_dict fs m = Except.ok d) :
    (∀ p ∈ m.data_filenames, (fsLookup fs p).isSome = true) ∧
    (∀ p ∈ m.metadata_filenames, (fsLookup fs p).isSome = true) ∧
    d.checksum_value =
      generateChecksum fs (m.data_filenames ++ m.metadata_filenames) ∧
    d.data_checksum_value = generateChecksum fs m.data_filenames := by
  rw [Manifest.to_dict] at hok
  split at hok
  · exact absurd hok (by simp)
  · rcases hf1 : m.data_filenames.find? (fun p => !(fsLookup fs p).isSome)
        with _ | p
    · rw [hf1] at hok
      simp only at hok
      rcases hf2 : m.metadata_filenames.find?
          (fun p => !(fsLookup fs p).isSome) with _ | p
      · rw [hf2] at hok
        simp only at hok
        have hd := Except.ok.inj hok
        subst hd
        have hx1 : ∀ p ∈ m.data_filenames, (fsLookup fs p).isSome = true := by
          intro q hq
          have h5 := List.find?_eq_none.mp hf1 q hq
          have h6 : ¬ fsLookup fs q = none := by simpa using h5
          exact Option.ne_none_iff_isSome.mp h6
        have hx2 : ∀ p ∈ m.metadata_filenames,
            (fsLookup fs p).isSome = true := by
          intro q hq
          have h5 := List.find?_eq_none.mp hf2 q hq
          have h6 : ¬ fsLookup fs q = none := by simpa using h5
          exact Option.ne_none_iff_isSome.mp h6
        exact ⟨hx1, hx2, rfl, rfl⟩
      · rw [hf2] at hok
        simp only at hok
        exact absurd hok (by simp)
    · rw [hf1] at hok
      simp only at hok
      exact absurd hok (by simp)

theorem check_integrity_eval (fs : FileSystem) (m : ManifestState)
    (h1 : m.data_filenames.isEmpty = false)
    (h2 : m.metadata_filenames.isEmpty = false)
    (h3 : m.data_checksum.isEmpty = false)
    (h4 : m.checksum.isEmpty = false)
    (hall : ∀ p ∈ m.data_filenames ++ m.metadata_filenames,
      (fsLookup fs p).isSome = true)
    (hdata : ∀ p ∈ m.data_filenames, (fsLookup fs p).isSome = true) :
    Manifest.check_integrity fs m = Except.ok
      { data := generateChecksum fs m.data_filenames == m.data_checksum,
        all := generateChecksum fs
          (m.data_filenames ++ m.metadata_filenames) == m.checksum } := by
  rw [Manifest.check_integrity,
    if_neg (by rw [h1, h2, h3, h4]; simp),
    generate_eq_some fs _ hall, generate_eq_some fs _ hdata]

/-- C9: check_integrity never mutates the stored manifest fields: the
manifest state after the call equals the state before, for every state the
method runs in; and whenever it returns a verdict, the verdict is the
string-equality comparison of checksums freshly recomputed from the files
currently on disk against the stored values. -/
theorem claim_C9_no_mutation (fs : FileSystem) (m : ManifestState) :
    (Manifest.check_integrity_run fs m).1 = m ∧
    (∀ i, (Manifest.check_integrity_run fs m).2 = Except.ok i →
      ∃ c dc,
        generate fs (Filenames.listOf
          (m.data_filenames ++ m.metadata_filenames)) = some c ∧
        generate fs (Filenames.listOf m.data_filenames) = some dc ∧
        i.data = (dc == m.data_checksum) ∧ i.all = (c == m.checksum)) := by
  refine ⟨rfl, ?_⟩
  intro i h
  have h2 : Manifest.check_integrity fs m = Except.ok i := h
  rw [Manifest.check_integrity] at h2
  split at h2
  · exact absurd h2 (by simp)
  · rcases hg1 : generate fs (Filenames.listOf
        (m.data_filenames ++ m.metadata_filenames)) with _ | c
    all_goals rcases hg2 : generate fs (Filenames.listOf m.data_filenames)
        with _ | dc
    all_goals rw [hg1, hg2] at h2
    all_goals simp only at h2
    · exact absurd h2 (by simp)
    · exact absurd h2 (by simp)
    · exact absurd h2 (by simp)
    · have hd := Except.ok.inj h2
      exact ⟨c, dc, rfl, rfl, by rw [← hd], by rw [← hd]⟩

deriving instance DecidableEq for Except

/-- Concrete file system for the manifest witnesses: one data file t and
one metadata file t.info. -/
def fsW : FileSystem := [("t".data, [104]), ("t.info".data, [105, 10])]

/-- Concrete manifest state for the C9 witness, with stored checksums that
match no file content. -/
def mW9 : ManifestState :=
  { loi := [], data_filenames := ["t".data],
    metadata_filenames := ["t.info".data],
    data_checksum := "x".data, checksum := "y".data }

/-- Witness for C9 at a concrete file system and manifest state on which
the method returns a verdict. -/
theorem claim_C9_witness :
    (Manifest.check_integrity_run fsW mW9).1 = mW9 ∧
    ∃ c dc,
      generate fsW (Filenames.listOf
        (mW9.data_filenames ++ mW9.metadata_filenames)) = some c ∧
      generate fsW (Filenames.listOf mW9.data_filenames) = some dc ∧
      (Integrity.mk false false).data = (dc == mW9.data_checksum) ∧
      (Integrity.mk false false).all = (c == mW9.checksum) :=
  ⟨(claim_C9_no_mutation fsW mW9).1,
   (claim_C9_no_mutation fsW mW9).2 (Integrity.mk false false) (by decide)⟩

/-- Manifest state for the C3 evaluation: one existing data file and an
empty metadata filename list. -/
def mW3 : ManifestState :=
  { loi := [], data_filenames := ["test".data], metadata_filenames := [],
    data_checksum := [], checksum := [] }

/-- C3, evaluation at the failing input: with a non-empty data list of
existing files and an empty metadata filename list, to_dict succeeds and
returns the record instead of raising the missing-information error the
claim (and the module docstring) requires; for contrast, an empty data
list and a missing listed metadata file do raise, naming the offending
item. -/
theorem claim_C3_empty_metadata_accepted :
    (Manifest.to_dict [("test".data, ([] : List Nat))] mW3).isOk = true ∧
    Manifest.to_dict [("test".data, ([] : List Nat))]
      { mW3 with data_filenames := [] } =
      Except.error (DsError.missingInformation "Data filenames missing".data) ∧
    Manifest.to_dict [("test".data, ([] : List Nat))]
      { mW3 with metadata_filenames := ["nope".data] } =
      Except.error (DsError.noFile "nope".data) := by
  refine ⟨?_, ?_, ?_⟩ <;> decide

/-- C5: for a manifest whose stored checksum fields were produced by
populating from files on disk, check_integrity returns data true and all
true; replacing exactly the stored data+metadata checksum by an arbitrary
other non-empty value flips only the all flag, and replacing exactly the
stored data checksum flips only the data flag.  (An empty replacement
value counts as an absent checksum, which the method rejects with a
missing-information error instead of a verdict.) -/
theorem claim_C5_integrity_detection (fs : FileSystem) (m : ManifestState)
    (d : ManifestDict)
    (hd : m.data_filenames.isEmpty = false)
    (hm : m.metadata_filenames.isEmpty = false)
    (hok : Manifest.to_dict fs m = Except.ok d) :
    (Manifest.check_integrity fs
      { m with checksum := d.checksum_value,
               data_checksum := d.data_checksum_value } =
      Except.ok { data := true, all := true }) ∧
    (∀ w, w ≠ [] → w ≠ d.checksum_value →
      Manifest.check_integrity fs
        { m with checksum := w, data_checksum := d.data_checksum_value } =
        Except.ok { data := true, all := false }) ∧
    (∀ w, w ≠ [] → w ≠ d.data_checksum_value →
      Manifest.check_integrity fs
        { m with checksum := d.checksum_value, data_checksum := w } =
        Except.ok { data := false, all := true }) := by
  obtain ⟨hx1, hx2, hcv, hdv⟩ := to_dict_ok fs m d hok
  have hall : ∀ p ∈ m.data_filenames ++ m.metadata_filenames,
      (fsLookup fs p).isSome = true := by
    intro q hq
    rcases List.mem_append.mp hq with hq | hq
    · exact hx1 q hq
    · exact hx2 q hq
  have hcvne : d.checksum_value ≠ [] := by
    rw [hcv]
    exact generateChecksum_ne_nil fs _ hall
  have hdvne : d.data_checksum_value ≠ [] := by
    rw [hdv]
    exact generateChecksum_ne_nil fs _ hx1
  refine ⟨?_, ?_, ?_⟩
  · rw [check_integrity_eval fs
      { m with checksum := d.checksum_value,
               data_checksum := d.data_checksum_value }
      hd hm (by simp [hdvne]) (by simp [hcvne]) hall hx1]
    simp [hcv, hdv]
  · intro w hw hwne
    rw [check_integrity_eval fs
      { m with checksum := w, data_checksum := d.data_checksum_value }
      hd hm (by simp [hdvne]) (by simp [hw]) hall hx1]
    have hfalse : (generateChecksum fs
        (m.data_filenames ++ m.metadata_filenames) == w) = false := by
      rw [beq_eq_false_iff_ne, ← hcv]
      exact fun he => hwne he.symm
    simp [hdv, hfalse]
  · intro w hw hwne
    rw [check_integrity_eval fs
      { m with checksum := d.checksum_value, data_checksum := w }
      hd hm (by simp [hw]) (by simp [hcvne]) hall hx1]
    have hfalse : (generateChecksum fs m.data_filenames == w) = false := by
      rw [beq_eq_false_iff_ne, ← hdv]
      exact fun he => hwne he.symm
    simp [hcv, hfalse]

/-- Concrete manifest state for the C5 witness before population. -/
def mW5 : ManifestState :=
  { loi := [], data_filenames := ["t".data],
    metadata_filenames := ["t.info".data],
    data_checksum := [], checksum := [] }

/-- Record produced by to_dict on the C5 witness file system. -/
def dW5 : ManifestDict :=
  { data_names := ["t".data], metadata_names := ["t.info".data], loi := [],
    checksum_value := "5fef149d4d923a29d8d2f8d86c9fb04f".data,
    data_checksum_value := "fe48d9de8ee2c143940417fd4894278a".data }

/-- Witness for C5 at a concrete populated manifest, with both stored
checksums in turn replaced by the wrong value "wrong". -/
theorem claim_C5_witness :
    (mW5.data_filenames.isEmpty = false ∧
      mW5.metadata_filenames.isEmpty = false ∧
      Manifest.to_dict fsW mW5 = Except.ok dW5) ∧
    Manifest.check_integrity fsW
      { mW5 with checksum := dW5.checksum_value,
                 data_checksum := dW5.data_checksum_value } =
      Except.ok { data := true, all := true } ∧
    Manifest.check_integrity fsW
      { mW5 with checksum := "wrong".data,
                 data_checksum := dW5.data_checksum_value } =
      Except.ok { data := true, all := false } ∧
    Manifest.check_integrity fsW
      { mW5 with checksum := dW5.checksum_value,
                 data_checksum := "wrong".data } =
      Except.ok { data := false, all := true } := by
  have h := claim_C5_integrity_detection fsW mW5 dW5 (by decide) (by decide)
    (by decide)
  exact ⟨⟨by decide, by decide, by decide⟩, h.1,
    h.2.1 "wrong".data (by decide) (by decide),
    h.2.2 "wrong".data (by decide) (by decide)⟩
